import Mathlib

/-!
Verification of the Neothasia MIDI-visualizer prototypes.

The repository contains three prototype MIDI extractors and a pygame
playback loop; this file gives a shallow embedding of the code that the
specification's claims are about:

* `Qwen.load_midi_notes`   — src/Neothasia_python/qwen_versie/midi_parser.py
* `Copilot.load_midi`      — src/Neothasia_python/copilot_versie/midi_parser.py
* `Neo.parse_midi_file`    — src/Neothasia_python/neothasia.py
* `App.*`                  — the playback state of PianoRollApp in neothasia.py

Conventions of the embedding:

* A mido message is a record with a `type` tag and the attribute fields the
  source reads (`time`, `note`, `velocity`, `channel`, `tempo`, `name`).
* Tick counters are `Nat`: the Python code only ever adds the integer
  delta-time fields, so the float `0.0` initializers in the source hold exact
  integer values throughout.  `ℚ` is used exactly where the source divides
  (`current_time / ticks_per_beat`, the tick/millisecond conversions of the
  playback clock).
* `mido.MidiFile(path)` performs file I/O, which is outside the embedding;
  each loader takes the outcome of that call as an argument
  (`Option MidiFileData`, or `Except String MidiFileData` where the source
  has no handler and the exception would propagate).
* Python dict values that the source indexes with string keys that may be
  absent (the `active_notes` records of `parse_midi_file`) are embedded as
  association lists `List (String × PV)`, and indexing is `dget`, which
  returns a `KeyError` on a missing key, exactly as Python does.
* Python's `list.sort(key=...)` is a stable sort by the key; it is embedded
  as `List.insertionSort` with the non-strict key comparison, which is also
  stable, so both produce the same list.
-/

deriving instance DecidableEq for Except

namespace Neothasia

/-- The message kinds the source code distinguishes (`msg.type` in mido). -/
inductive MsgType
  | note_on
  | note_off
  | set_tempo
  | track_name
  | other
deriving DecidableEq, Repr

/-- A mido message, restricted to the attributes the repository reads. -/
structure Msg where
  type : MsgType
  time : Nat := 0
  note : Nat := 0
  velocity : Nat := 0
  channel : Nat := 0
  tempo : Nat := 0
  name : String := ""
deriving DecidableEq, Repr

/-- The result of a successful `mido.MidiFile(path)` call: the header's
resolution and the track chunks. -/
structure MidiFileData where
  ticks_per_beat : Nat
  tracks : List (List Msg)
deriving DecidableEq, Repr

/-- `mido.Message('note_on', ...)` -/
def onMsg (time note velocity channel : Nat) : Msg :=
  { type := .note_on, time := time, note := note, velocity := velocity, channel := channel }

/-- `mido.Message('note_off', ...)` -/
def offMsg (time note channel : Nat) : Msg :=
  { type := .note_off, time := time, note := note, channel := channel }

/-- Any message the extractors do not act on (it only advances time). -/
def otherMsg (time : Nat) : Msg :=
  { type := .other, time := time }

namespace Qwen

/-- A note record produced by `load_midi_notes`: the dict accumulates
`start_time` and `velocity` at note-on and gains `end_time` and `note` at
note-off.  All times are in ticks, exactly as in the source (no conversion
to seconds is performed there). -/
structure QNote where
  start_time : Nat
  velocity : Nat
  end_time : Nat
  note : Nat
deriving DecidableEq, Repr

/-- The loop state of `load_midi_notes`: the running tick counter, the
`active_notes` dict (note number ↦ (start_time, velocity)) and the output
list. -/
structure QState where
  current_time : Nat
  active_notes : Nat → Option (Nat × Nat)
  notes : List QNote

/-- One iteration of the `for msg in selected_track` loop of
`load_midi_notes` (qwen_versie/midi_parser.py, lines 39-48). -/
def qstep (s : QState) (msg : Msg) : QState :=
  let t := s.current_time + msg.time
  if msg.type = .note_on ∧ msg.velocity > 0 then
    { current_time := t
      active_notes := fun k => if k = msg.note then some (t, msg.velocity) else s.active_notes k
      notes := s.notes }
  else if msg.type = .note_off ∨ (msg.type = .note_on ∧ msg.velocity = 0) then
    match s.active_notes msg.note with
    | some nd =>
        { current_time := t
          active_notes := fun k => if k = msg.note then none else s.active_notes k
          notes := s.notes ++ [{ start_time := nd.1, velocity := nd.2, end_time := t, note := msg.note }] }
    | none => { s with current_time := t }
  else
    { s with current_time := t }

/-- The whole message loop. -/
def qrun (s : QState) : List Msg → QState
  | [] => s
  | msg :: rest => qrun (qstep s msg) rest

/-- `load_midi_notes(midi_path, selected_track_index)`.  The `try` block
only covers `MidiFile(midi_path)`: a load failure is caught and the function
returns `[]`; the subsequent `mid.tracks[selected_track_index]` is outside
it, so an out-of-range index raises. -/
def load_midi_notes (loaded : Option MidiFileData) (selected_track_index : Nat) :
    Except String (List QNote) :=
  match loaded with
  | none => .ok []
  | some mid =>
    match mid.tracks.get? selected_track_index with
    | none => .error "IndexError"
    | some selected_track => .ok (qrun ⟨0, fun _ => none, []⟩ selected_track).notes

end Qwen

namespace Neo

/-- A Python value stored in the per-note dicts of `parse_midi_file`
(the stored values are ints and the track-name string). -/
inductive PV
  | nat (n : Nat)
  | str (s : String)
deriving DecidableEq, Repr

/-- A Python dict with string keys, as an association list in insertion
order. -/
abbrev PyDict := List (String × PV)

/-- `d[k]` on a Python dict: the value, or a `KeyError` when the key is
absent. -/
def dget (d : PyDict) (k : String) : Except String PV :=
  match d.find? (fun p => p.1 == k) with
  | some p => .ok p.2
  | none => .error ("KeyError: " ++ k)

/-- `d[k]` expected to be an int. -/
def dgetNat (d : PyDict) (k : String) : Except String Nat :=
  match dget d k with
  | .ok (.nat n) => .ok n
  | .ok (.str _) => .error ("TypeError: " ++ k)
  | .error e => .error e

/-- `d[k]` expected to be a string. -/
def dgetStr (d : PyDict) (k : String) : Except String String :=
  match dget d k with
  | .ok (.str s) => .ok s
  | .ok (.nat _) => .error ("TypeError: " ++ k)
  | .error e => .error e

/-- One entry of the `notes_data` output list of `parse_midi_file`
(neothasia.py lines 116-123 / 130-137).  Times are in ticks; `duration` is
an int that the emission guard has checked to be positive. -/
structure NoteData where
  note : Nat
  start_time : Nat
  duration : Int
  velocity : Nat
  track_name : String
  channel : Nat
deriving DecidableEq, Repr

/-- The key of the `active_notes` dict: `(msg.note, msg.channel, track_name)`. -/
abbrev Key := Nat × Nat × String

/-- The dict literal stored on note-on (neothasia.py lines 104-109).  Note
that it has no `'note'` entry. -/
def activeEntry (t velocity channel : Nat) (track_name : String) : PyDict :=
  [("start_time", .nat t), ("velocity", .nat velocity),
   ("channel", .nat channel), ("track_name", .str track_name)]

/-- The state shared across tracks in `parse_midi_file`: the output list,
the `active_notes` dict (which is *not* reset between tracks) and the
`tempo_changes` dict. -/
structure PState where
  notes_data : List NoteData
  active_notes : Key → Option PyDict
  tempo_changes : List (Nat × Nat)

/-- Assignment `tc[k] = v` on the `tempo_changes` dict: overwrite in place
if present, else append. -/
def setTempoDict (tc : List (Nat × Nat)) (k v : Nat) : List (Nat × Nat) :=
  if tc.any (fun p => p.1 == k) then
    tc.map (fun p => if p.1 == k then (k, v) else p)
  else tc ++ [(k, v)]

/-- The dict literal appended to `notes_data` (lines 116-123 / 130-137),
with its value expressions evaluated in source order: the first one is
`note_info['note']`, a key the dict stored at note-on does not have. -/
def emitNote (note_info : PyDict) (duration : Int) : Except String NoteData := do
  let nv ← dgetNat note_info "note"
  let sv ← dgetNat note_info "start_time"
  let vv ← dgetNat note_info "velocity"
  let tv ← dgetStr note_info "track_name"
  let cv ← dgetNat note_info "channel"
  .ok { note := nv, start_time := sv, duration := duration,
        velocity := vv, track_name := tv, channel := cv }

/-- The note-completion code of `parse_midi_file` as it appears twice in
the source (velocity-0 note-on, lines 110-123, and note-off, lines
124-137): if the key is active, pop it (the dict with the key removed is
written out in both branches below), compute
`duration = current_track_time - note_info['start_time']`, and if it is
positive append the output dict built by `emitNote`. -/
def closeKey (p : PState) (key : Key) (t : Nat) : Except String PState :=
  match p.active_notes key with
  | some note_info =>
      match dgetNat note_info "start_time" with
      | .error e => .error e
      | .ok start =>
          if (t : Int) - (start : Int) > 0 then
            match emitNote note_info ((t : Int) - (start : Int)) with
            | .error e => .error e
            | .ok nd =>
                .ok { notes_data := p.notes_data ++ [nd],
                      active_notes := fun k => if k = key then none else p.active_notes k,
                      tempo_changes := p.tempo_changes }
          else
            .ok { p with active_notes := fun k => if k = key then none else p.active_notes k }
  | none => .ok p

/-- One iteration of the `for msg in track` loop of `parse_midi_file`
(neothasia.py lines 97-140), for the track named `tname`; the second state
component is `current_track_time`. -/
def pstep (tname : String) (p : PState) (ct : Nat) (msg : Msg) :
    Except String (PState × Nat) :=
  let t := ct + msg.time
  if msg.type = .note_on then
    if msg.velocity > 0 then
      let key : Key := (msg.note, msg.channel, tname)
      .ok ({ p with active_notes := fun k =>
              if k = key then some (activeEntry t msg.velocity msg.channel tname)
              else p.active_notes k }, t)
    else
      match closeKey p (msg.note, msg.channel, tname) t with
      | .ok p' => .ok (p', t)
      | .error e => .error e
  else if msg.type = .note_off then
    match closeKey p (msg.note, msg.channel, tname) t with
    | .ok p' => .ok (p', t)
    | .error e => .error e
  else if msg.type = .set_tempo then
    .ok ({ p with tempo_changes := setTempoDict p.tempo_changes t msg.tempo }, t)
  else
    .ok (p, t)

/-- The whole per-track message loop of `parse_midi_file`. -/
def prun (tname : String) (p : PState) (ct : Nat) : List Msg → Except String (PState × Nat)
  | [] => .ok (p, ct)
  | msg :: rest =>
    match pstep tname p ct msg with
    | .ok r => prun tname r.1 r.2 rest
    | .error e => .error e

/-- The track-name scan of `parse_midi_file` (lines 87-92): the first
`track_name` message's name, else `"Track {i+1}"`. -/
def findTrackName (i : Nat) (track : List Msg) : String :=
  match track.find? (fun m => m.type == .track_name) with
  | some m => m.name
  | none => "Track " ++ toString (i + 1)

/-- The `for i, track in enumerate(mid.tracks)` loop: each track is
processed with its own `current_track_time = 0`, while `PState` is carried
across tracks. -/
def ptracks (i : Nat) (p : PState) (tnames : List String) :
    List (List Msg) → Except String (PState × List String)
  | [] => .ok (p, tnames)
  | track :: rest =>
    match prun (findTrackName i track) p 0 track with
    | .ok r => ptracks (i + 1) r.1 (tnames ++ [findTrackName i track]) rest
    | .error e => .error e

/-- The tuple `parse_midi_file` returns. -/
structure ParseResult where
  notes_data : List NoteData
  track_names : List String
  ticks_per_beat : Nat
  tempo_changes : List (Nat × Nat)
deriving DecidableEq, Repr

/-- The key order of the final `notes_data.sort(key=lambda x: x['start_time'])`. -/
def byStart (a b : NoteData) : Prop := a.start_time ≤ b.start_time

instance : DecidableRel byStart := fun a b => Nat.decLe a.start_time b.start_time

/-- `parse_midi_file(midi_filepath)` (neothasia.py lines 48-145).  A failed
`mido.MidiFile` call is caught and `([], [], 0, {})` is returned; otherwise
the tracks are processed and the collected notes are stably sorted by
`start_time`. -/
def parse_midi_file (loaded : Option MidiFileData) : Except String ParseResult :=
  match loaded with
  | none => .ok { notes_data := [], track_names := [], ticks_per_beat := 0, tempo_changes := [] }
  | some mid =>
    match ptracks 0 ⟨[], fun _ => none, []⟩ [] mid.tracks with
    | .ok (p, tnames) =>
        .ok { notes_data := p.notes_data.insertionSort byStart,
              track_names := tnames,
              ticks_per_beat := mid.ticks_per_beat,
              tempo_changes := p.tempo_changes }
    | .error e => .error e

end Neo

namespace Copilot

/-- One track of `load_midi` (copilot_versie/midi_parser.py lines 7-11):
the running counter `current_time` is threaded *in and out*, because the
source initializes it once, before the `for track in midi.tracks` loop.
Every note-on with positive velocity appends
`(msg.note, current_time / midi.ticks_per_beat, msg.channel)`. -/
def crun (tpb : Nat) (ct : Nat) (notes : List (Nat × ℚ × Nat)) :
    List Msg → Nat × List (Nat × ℚ × Nat)
  | [] => (ct, notes)
  | msg :: rest =>
    let t := ct + msg.time
    if msg.type = .note_on ∧ msg.velocity > 0 then
      crun tpb t (notes ++ [(msg.note, (t : ℚ) / (tpb : ℚ), msg.channel)]) rest
    else
      crun tpb t notes rest

/-- The outer `for track in midi.tracks` loop, carrying the single global
`current_time` from one track into the next. -/
def ctracks (tpb : Nat) (ct : Nat) (notes : List (Nat × ℚ × Nat)) :
    List (List Msg) → List (Nat × ℚ × Nat)
  | [] => notes
  | track :: rest =>
    let r := crun tpb ct notes track
    ctracks tpb r.1 r.2 rest

/-- `load_midi(file_path)` (copilot_versie/midi_parser.py lines 3-12).
There is no `try`/`except` around `mido.MidiFile(file_path)`, so a load
failure propagates to the caller unchanged. -/
def load_midi (loaded : Except String MidiFileData) :
    Except String (List (Nat × ℚ × Nat)) :=
  match loaded with
  | .error e => .error e
  | .ok midi => .ok (ctracks midi.ticks_per_beat 0 [] midi.tracks)

end Copilot

namespace App

/-- The playback-relevant state of `PianoRollApp` (neothasia.py): the
play/pause flags, the two millisecond anchors, the spawn cursor, the sorted
note list prepared for playback, and the spawned `FallingNote` sprites,
identified by their index in `notes_to_spawn`.  (Key layout, drawing, and
the UI widgets are external collaborators and are not modelled.) -/
structure AppState where
  playing : Bool
  paused : Bool
  start_time : Int
  pause_offset : Int
  next_note_index : Nat
  notes_to_spawn : List Neo.NoteData
  notes_on_screen : List Nat
deriving DecidableEq, Repr

/-- `PianoRollApp.play_midi` (lines 411-430), with `now` standing for
`pygame.time.get_ticks()`: resuming from pause restores the anchor from
`pause_offset`; a fresh start resets the anchors, the sprite group and the
spawn cursor; a call while already playing does nothing. -/
def play_midi (s : AppState) (now : Int) : AppState :=
  if s.paused then
    { s with playing := true, paused := false, start_time := now - s.pause_offset }
  else if s.playing = false then
    { s with playing := true, paused := false, start_time := now, pause_offset := 0,
             notes_on_screen := [], next_note_index := 0 }
  else s

/-- `PianoRollApp.pause_midi` (lines 432-437). -/
def pause_midi (s : AppState) (now : Int) : AppState :=
  if s.playing then
    { s with playing := false, paused := true, pause_offset := now - s.start_time }
  else s

/-- `PianoRollApp.stop_midi` (lines 439-446). -/
def stop_midi (s : AppState) : AppState :=
  { s with playing := false, paused := false, start_time := 0, pause_offset := 0,
           notes_on_screen := [], next_note_index := 0 }

/-- `PianoRollApp.get_current_midi_time_in_ticks` (lines 448-481): zero when
neither playing nor paused, otherwise wall-clock milliseconds since
`start_time` converted with the BPM-slider value and `ticks_per_beat`. -/
def get_current_midi_time_in_ticks (s : AppState) (now : Int) (bpm tpb : ℚ) : ℚ :=
  if s.playing = false ∧ s.paused = false then 0
  else
    let current_playback_time_ms : Int := now - s.start_time
    let ms_per_beat : ℚ := 60 / bpm * 1000
    let ticks_per_ms : ℚ := tpb / ms_per_beat
    (current_playback_time_ms : ℚ) * ticks_per_ms

/-- The spawn test of the run loop (line 569):
`note_info['start_time'] - fall_time_ticks <= current_midi_tick`, with
`fall_time_ticks` derived from the fall-speed and BPM sliders
(lines 558-566). -/
def spawnCond (bpm fallSpeed tpb tick : ℚ) (n : Neo.NoteData) : Bool :=
  let fall_time_seconds : ℚ := 2 / fallSpeed
  let fall_time_ms : ℚ := fall_time_seconds * 1000
  let ms_per_beat : ℚ := 60 / bpm * 1000
  let ticks_per_ms : ℚ := tpb / ms_per_beat
  let fall_time_ticks : ℚ := fall_time_ms * ticks_per_ms
  decide ((n.start_time : ℚ) - fall_time_ticks ≤ tick)

/-- The `while self.next_note_index < len(self.notes_to_spawn)` spawn loop
(lines 520-603), run on the notes from the cursor on: spawn-and-advance
while the test holds, `break` at the first note that fails it.  Returns the
new cursor and the indices spawned this frame. -/
def spawn_loop (cond : Neo.NoteData → Bool) : List Neo.NoteData → Nat → Nat × List Nat
  | [], i => (i, [])
  | n :: rest, i =>
    if cond n then
      let r := spawn_loop cond rest (i + 1)
      (r.1, i :: r.2)
    else (i, [])

/-- One pass of the update section of `PianoRollApp.run` (lines 516-616):
gated on `self.playing`, it computes the current tick and runs the spawn
loop.  (The sprite `update`/off-screen removal that follows only moves
already-spawned sprites and is geometric; it is out of scope here.)
Returns the new state and the indices spawned in this frame. -/
def frame (s : AppState) (now : Int) (bpm fallSpeed tpb : ℚ) : AppState × List Nat :=
  if s.playing then
    let tick := get_current_midi_time_in_ticks s now bpm tpb
    let r := spawn_loop (spawnCond bpm fallSpeed tpb tick)
               (s.notes_to_spawn.drop s.next_note_index) s.next_note_index
    ({ s with next_note_index := r.1, notes_on_screen := s.notes_on_screen ++ r.2 }, r.2)
  else (s, [])

/-- The user-driven events between frames that do not reset playback. -/
inductive Op
  | frame (now : Int) (bpm fallSpeed : ℚ)
  | pause (now : Int)
  | play (now : Int)

/-- Run a sequence of frame ticks, pauses and resumes, collecting every
note index the spawn loop hands to the sprite group. -/
def runOps (tpb : ℚ) (s : AppState) : List Op → AppState × List Nat
  | [] => (s, [])
  | op :: rest =>
    let r : AppState × List Nat :=
      match op with
      | .frame now bpm fallSpeed => frame s now bpm fallSpeed tpb
      | .pause now => (pause_midi s now, [])
      | .play now => (play_midi s now, [])
    let r' := runOps tpb r.1 rest
    (r'.1, r.2 ++ r'.2)

/-- The state right after pressing play on a freshly loaded file. -/
def startPlaying (notes : List Neo.NoteData) (now : Int) : AppState :=
  play_midi
    { playing := false, paused := false, start_time := 0, pause_offset := 0,
      next_note_index := 0, notes_to_spawn := notes, notes_on_screen := [] } now

end App

end Neothasia

namespace Neothasia

namespace Neo

/-- The dict stored at note-on has no `'note'` key. -/
theorem activeEntry_find?_note (t v c : Nat) (tn : String) :
    (activeEntry t v c tn).find? (fun q => q.1 == "note") = none := rfl

/-- Looking up `'start_time'` in the dict stored at note-on. -/
theorem dgetNat_activeEntry_start (t v c : Nat) (tn : String) :
    dgetNat (activeEntry t v c tn) "start_time" = .ok t := rfl

/-- Building the output dict fails with a `KeyError` whenever the popped
dict has no `'note'` key. -/
theorem emitNote_of_no_note (note_info : PyDict) (d : Int)
    (h : note_info.find? (fun q => q.1 == "note") = none) :
    emitNote note_info d = .error "KeyError: note" := by
  have hn : dgetNat note_info "note" = .error "KeyError: note" := by
    unfold dgetNat dget
    rw [h]
    rfl
  unfold emitNote
  rw [hn]
  rfl

/-- Invariant of the extraction state: every dict in `active_notes` lacks
the `'note'` key (true of every dict the code ever stores there). -/
def NoNoteField (p : PState) : Prop :=
  ∀ k d, p.active_notes k = some d → d.find? (fun q => q.1 == "note") = none

theorem noNoteField_init : NoNoteField ⟨[], fun _ => none, []⟩ := by
  intro k d h
  exact Option.noConfusion h

/-- A successful `closeKey` cannot have emitted anything, and preserves the
invariant: the emission branch always dies on `note_info['note']`. -/
theorem closeKey_ok (p : PState) (key : Key) (t : Nat) (p' : PState)
    (hp : NoNoteField p) (h : closeKey p key t = .ok p') :
    p'.notes_data = p.notes_data ∧ NoNoteField p' := by
  unfold closeKey at h
  split at h
  · rename_i note_info hk
    split at h
    · exact Except.noConfusion h
    · rename_i start hs
      split at h
      · rw [emitNote_of_no_note note_info _ (hp key note_info hk)] at h
        simp at h
      · cases h
        refine ⟨rfl, fun k d hkd => ?_⟩
        by_cases hke : k = key
        · simp [hke] at hkd
        · simp [hke] at hkd
          exact hp k d hkd
  · cases h
    exact ⟨rfl, hp⟩

/-- One successful message step never emits, preserves the invariant, and
advances the track counter by exactly the message's delta. -/
theorem pstep_ok (tname : String) (p : PState) (ct : Nat) (msg : Msg)
    (r : PState × Nat) (hp : NoNoteField p) (h : pstep tname p ct msg = .ok r) :
    r.1.notes_data = p.notes_data ∧ NoNoteField r.1 ∧ r.2 = ct + msg.time := by
  simp only [pstep] at h
  split at h
  · split at h
    · cases h
      refine ⟨rfl, fun k d hkd => ?_, rfl⟩
      by_cases hke : k = (msg.note, msg.channel, tname)
      · simp [hke] at hkd
        rw [← hkd]
        exact activeEntry_find?_note _ _ _ _
      · simp [hke] at hkd
        exact hp k d hkd
    · split at h
      · rename_i p'' hcl
        cases h
        obtain ⟨h1, h2⟩ := closeKey_ok _ _ _ _ hp hcl
        exact ⟨h1, h2, rfl⟩
      · exact Except.noConfusion h
  · split at h
    · split at h
      · rename_i p'' hcl
        cases h
        obtain ⟨h1, h2⟩ := closeKey_ok _ _ _ _ hp hcl
        exact ⟨h1, h2, rfl⟩
      · exact Except.noConfusion h
    · split at h
      · cases h
        exact ⟨rfl, hp, rfl⟩
      · cases h
        exact ⟨rfl, hp, rfl⟩

/-- A successful run of the per-track message loop never emits, preserves
the invariant, and ends with the counter equal to its starting value plus
the sum of the processed deltas — the tick position depends only on the
track's own messages, never on the inter-track state `p`. -/
theorem prun_ok (tname : String) (msgs : List Msg) :
    ∀ (p : PState) (ct : Nat) (r : PState × Nat), NoNoteField p →
      prun tname p ct msgs = .ok r →
      r.1.notes_data = p.notes_data ∧ NoNoteField r.1 ∧
        r.2 = ct + (msgs.map Msg.time).sum := by
  induction msgs with
  | nil =>
      intro p ct r hp h
      cases h
      exact ⟨rfl, hp, by simp⟩
  | cons m rest ih =>
      intro p ct r hp h
      unfold prun at h
      split at h
      · rename_i pr hs
        obtain ⟨h1, h2, h3⟩ := pstep_ok tname p ct m pr hp hs
        obtain ⟨g1, g2, g3⟩ := ih pr.1 pr.2 r h2 h
        refine ⟨g1.trans h1, g2, ?_⟩
        simp only [List.map_cons, List.sum_cons]
        omega
      · exact Except.noConfusion h

/-- The track loop of `parse_midi_file` never accumulates notes on a
successful run (every completed note dies on the missing `'note'` key). -/
theorem ptracks_ok (tracks : List (List Msg)) :
    ∀ (i : Nat) (p : PState) (tns : List String) (r : PState × List String),
      NoNoteField p → ptracks i p tns tracks = .ok r →
      r.1.notes_data = p.notes_data ∧ NoNoteField r.1 := by
  induction tracks with
  | nil =>
      intro i p tns r hp h
      cases h
      exact ⟨rfl, hp⟩
  | cons track rest ih =>
      intro i p tns r hp h
      unfold ptracks at h
      split at h
      · rename_i pr hs
        obtain ⟨h1, h2, _⟩ := prun_ok _ _ p 0 pr hp hs
        obtain ⟨g1, g2⟩ := ih (i + 1) pr.1 _ r h2 h
        exact ⟨g1.trans h1, g2⟩
      · exact Except.noConfusion h

end Neo

namespace App

/-- The spawn loop only moves the cursor forward, and the indices it emits
are pairwise increasing and lie between the old and the new cursor. -/
theorem spawn_loop_spec (cond : Neo.NoteData → Bool) (l : List Neo.NoteData) :
    ∀ i : Nat, i ≤ (spawn_loop cond l i).1 ∧
      (spawn_loop cond l i).2.Pairwise (· < ·) ∧
      ∀ x ∈ (spawn_loop cond l i).2, i ≤ x ∧ x < (spawn_loop cond l i).1 := by
  induction l with
  | nil =>
      intro i
      simp [spawn_loop]
  | cons n rest ih =>
      intro i
      by_cases hc : cond n
      · obtain ⟨h1, h2, h3⟩ := ih (i + 1)
        simp only [spawn_loop, hc, if_true]
        refine ⟨by omega, ?_, ?_⟩
        · exact List.Pairwise.cons (fun x hx => by have := (h3 x hx).1; omega) h2
        · intro x hx
          rcases List.mem_cons.mp hx with hx | hx
          · subst hx
            exact ⟨Nat.le_refl _, by omega⟩
          · have := h3 x hx
            exact ⟨by omega, this.2⟩
      · simp [spawn_loop, hc]

/-- One frame: flags are untouched, the cursor is monotone, and the spawned
indices lie between the old and the new cursor, pairwise increasing. -/
theorem frame_inv (s : AppState) (now : Int) (bpm fallSpeed tpb : ℚ) :
    s.next_note_index ≤ (frame s now bpm fallSpeed tpb).1.next_note_index ∧
    (frame s now bpm fallSpeed tpb).1.playing = s.playing ∧
    (frame s now bpm fallSpeed tpb).1.paused = s.paused ∧
    (frame s now bpm fallSpeed tpb).2.Pairwise (· < ·) ∧
    ∀ x ∈ (frame s now bpm fallSpeed tpb).2,
      s.next_note_index ≤ x ∧ x < (frame s now bpm fallSpeed tpb).1.next_note_index := by
  by_cases hp : s.playing
  · obtain ⟨h1, h2, h3⟩ :=
      spawn_loop_spec
        (spawnCond bpm fallSpeed tpb (get_current_midi_time_in_ticks s now bpm tpb))
        (s.notes_to_spawn.drop s.next_note_index) s.next_note_index
    simp only [frame, hp, if_true]
    exact ⟨h1, trivial, trivial, h2, h3⟩
  · simp [frame, hp]

/-- `pause_midi` never touches the spawn cursor, and keeps the session in
the playing-or-paused region. -/
theorem pause_midi_inv (s : AppState) (now : Int)
    (hs : s.playing = true ∨ s.paused = true) :
    (pause_midi s now).next_note_index = s.next_note_index ∧
    ((pause_midi s now).playing = true ∨ (pause_midi s now).paused = true) := by
  by_cases hp : s.playing
  · simp [pause_midi, hp]
  · have hpa : s.paused = true := by
      rcases hs with h | h
      · exact absurd h hp
      · exact h
    simp [pause_midi, hp, hpa]

/-- While the session is playing or paused, `play_midi` either resumes or
is a no-op: the fresh-start branch that resets the cursor is unreachable,
so the cursor is never moved backwards. -/
theorem play_midi_inv (s : AppState) (now : Int)
    (hs : s.playing = true ∨ s.paused = true) :
    (play_midi s now).next_note_index = s.next_note_index ∧
    ((play_midi s now).playing = true ∨ (play_midi s now).paused = true) := by
  by_cases hpz : s.paused
  · simp [play_midi, hpz]
  · have hpl : s.playing = true := by
      rcases hs with h | h
      · exact h
      · exact absurd h hpz
    simp [play_midi, hpz, hpl]

/-- Invariant of a play-until-stop session: under any interleaving of frame
ticks, pauses and resumes, the cursor is monotone, the session stays in the
playing-or-paused region, and the full spawn log is strictly increasing and
bounded by the cursor. -/
theorem runOps_inv (tpb : ℚ) (ops : List Op) :
    ∀ s : AppState, (s.playing = true ∨ s.paused = true) →
      s.next_note_index ≤ (runOps tpb s ops).1.next_note_index ∧
      ((runOps tpb s ops).1.playing = true ∨ (runOps tpb s ops).1.paused = true) ∧
      (runOps tpb s ops).2.Pairwise (· < ·) ∧
      ∀ x ∈ (runOps tpb s ops).2,
        s.next_note_index ≤ x ∧ x < (runOps tpb s ops).1.next_note_index := by
  induction ops with
  | nil =>
      intro s hs
      simp only [runOps]
      exact ⟨Nat.le_refl _, hs, List.Pairwise.nil, by simp⟩
  | cons op rest ih =>
      intro s hs
      cases op with
      | frame now bpm fallSpeed =>
          obtain ⟨f1, f2, f3, f4, f5⟩ := frame_inv s now bpm fallSpeed tpb
          have hs' : (frame s now bpm fallSpeed tpb).1.playing = true ∨
              (frame s now bpm fallSpeed tpb).1.paused = true := by
            rcases hs with h | h
            · exact Or.inl (f2.trans h)
            · exact Or.inr (f3.trans h)
          obtain ⟨g1, g2, g3, g4⟩ := ih (frame s now bpm fallSpeed tpb).1 hs'
          simp only [runOps]
          refine ⟨by omega, g2, ?_, ?_⟩
          · rw [List.pairwise_append]
            refine ⟨f4, g3, fun x hx y hy => ?_⟩
            have hxb := f5 x hx
            have hyb := g4 y hy
            omega
          · intro x hx
            rcases List.mem_append.mp hx with hx | hx
            · have := f5 x hx
              omega
            · have := g4 x hx
              omega
      | pause now =>
          obtain ⟨f1, f2⟩ := pause_midi_inv s now hs
          obtain ⟨g1, g2, g3, g4⟩ := ih (pause_midi s now) f2
          simp only [runOps]
          refine ⟨by omega, g2, by simpa using g3, ?_⟩
          intro x hx
          simp only [List.nil_append] at hx
          have := g4 x hx
          omega
      | play now =>
          obtain ⟨f1, f2⟩ := play_midi_inv s now hs
          obtain ⟨g1, g2, g3, g4⟩ := ih (play_midi s now) f2
          simp only [runOps]
          refine ⟨by omega, g2, by simpa using g3, ?_⟩
          intro x hx
          simp only [List.nil_append] at hx
          have := g4 x hx
          omega

end App

namespace Neo

/-- A successful step advances the counter by exactly the message's delta
(no invariant needed). -/
theorem pstep_time (tname : String) (p : PState) (ct : Nat) (msg : Msg)
    (r : PState × Nat) (h : pstep tname p ct msg = .ok r) : r.2 = ct + msg.time := by
  simp only [pstep] at h
  split at h
  · split at h
    · cases h
      rfl
    · split at h
      · cases h
        rfl
      · exact Except.noConfusion h
  · split at h
    · split at h
      · cases h
        rfl
      · exact Except.noConfusion h
    · split at h
      · cases h
        rfl
      · cases h
        rfl

/-- Closing a key that is active with a note-on record, at a strictly later
tick, reaches the emission and dies on the missing `'note'` key. -/
theorem closeKey_active_pos (p : PState) (key : Key) (t1 t v c : Nat) (tn : String)
    (hk : p.active_notes key = some (activeEntry t1 v c tn))
    (ht : t1 < t) :
    closeKey p key t = .error "KeyError: note" := by
  have hpos : ((t : Int) - ((t1 : Nat) : Int) > 0) := by omega
  unfold closeKey
  rw [hk]
  dsimp only
  rw [dgetNat_activeEntry_start]
  dsimp only
  rw [if_pos hpos, emitNote_of_no_note _ _ (activeEntry_find?_note t1 v c tn)]

/-- Closing a key that is active with a note-on record at a tick that is not
later only pops the key: nothing is emitted and no error is raised. -/
theorem closeKey_active_nonpos (p : PState) (key : Key) (t1 t v c : Nat) (tn : String)
    (hk : p.active_notes key = some (activeEntry t1 v c tn))
    (ht : t ≤ t1) :
    closeKey p key t =
      .ok { p with active_notes := fun k => if k = key then none else p.active_notes k } := by
  have hneg : ¬ ((t : Int) - ((t1 : Nat) : Int) > 0) := by omega
  unfold closeKey
  rw [hk]
  dsimp only
  rw [dgetNat_activeEntry_start]
  dsimp only
  rw [if_neg hneg]

/-- A note-on with positive velocity stores the four-field dict under the
`(note, channel, track_name)` key. -/
theorem pstep_noteOn_pos (tname : String) (p : PState) (ct t n v ch : Nat) (hv : 0 < v) :
    pstep tname p ct (onMsg t n v ch) =
      .ok ({ p with active_notes := fun k =>
              if k = (n, ch, tname) then some (activeEntry (ct + t) v ch tname)
              else p.active_notes k }, ct + t) := by
  simp only [pstep, onMsg]
  simp [hv]

/-- A note-off step is exactly a `closeKey` at the advanced counter. -/
theorem pstep_noteOff_eq (tname : String) (p : PState) (ct t n ch : Nat) :
    pstep tname p ct (offMsg t n ch) =
      match closeKey p (n, ch, tname) (ct + t) with
      | .ok p' => .ok (p', ct + t)
      | .error e => .error e := by
  simp only [pstep, offMsg]
  simp

end Neo

end Neothasia


/-! ## The claims -/

namespace Neothasia

open Qwen Neo App

/-- **C1, counterexample.**  The claim says extraction converts ticks to
seconds: a single note-on at tick `T1 = 1` and note-off at tick `T2 = 2`
under the default tempo (500000 µs per quarter, resolution 480) should
yield `start_time = T1 * spt` with `spt = 500000 / 1000000 / 480` seconds.
The extractor emits the raw tick values instead: the unique record has
`start_time = 1` (and `end_time = 2`), and `1 ≠ 1 * spt`.  No extractor in
the repository converts ticks to seconds. -/
theorem c1_ticks_not_seconds_cex :
    Qwen.load_midi_notes (some ⟨480, [[onMsg 1 60 80 0, offMsg 1 60 0]]⟩) 0 =
      .ok [{ start_time := 1, velocity := 80, end_time := 2, note := 60 }] ∧
    (1 : ℚ) ≠ 1 * (500000 / 1000000 / 480) := by
  constructor
  · decide
  · norm_num

/-- **C1, amended.**  For every synthetic track with a single note-on at
tick `T1` and note-off at tick `T2 > T1`, `load_midi_notes` yields exactly
one record, with `start_time = T1` and `end_time = T2` in *ticks* (the
duration `T2 - T1` is recorded as the `end_time`/`start_time` difference;
no seconds-per-tick conversion is applied). -/
theorem c1_single_pair_yields_tick_times (tpb n v ch T1 T2 : Nat)
    (hv : 0 < v) (hT : T1 < T2) :
    Qwen.load_midi_notes (some ⟨tpb, [[onMsg T1 n v ch, offMsg (T2 - T1) n ch]]⟩) 0 =
      .ok [{ start_time := T1, velocity := v, end_time := T2, note := n }] := by
  show Except.ok (Qwen.qrun ⟨0, fun _ => none, []⟩
      [onMsg T1 n v ch, offMsg (T2 - T1) n ch]).notes = _
  simp [Qwen.qrun, Qwen.qstep, onMsg, offMsg, hv]
  omega

/-- **C1, witness.** -/
theorem c1_single_pair_yields_tick_times_witness :
    0 < 80 ∧ 1 < 2 ∧
    Qwen.load_midi_notes (some ⟨480, [[onMsg 1 60 80 0, offMsg (2 - 1) 60 0]]⟩) 0 =
      .ok [{ start_time := 1, velocity := 80, end_time := 2, note := 60 }] :=
  ⟨by decide, by decide,
    c1_single_pair_yields_tick_times 480 60 80 0 1 2 (by decide) (by decide)⟩

/-- **C2, counterexample.**  `Copilot.load_midi` keeps one `current_time`
for the whole file, so a note's absolute tick position *does* depend on the
deltas of previously processed tracks: two files with an identical second
track but different first-track deltas place the second track's note at
tick 150 and tick 60 respectively (`ticks_per_beat = 1`). -/
theorem c2_copilot_global_counter_cex :
    Copilot.load_midi (.ok ⟨1, [[otherMsg 100], [onMsg 50 60 80 0]]⟩) =
      .ok [(60, 150, 0)] ∧
    Copilot.load_midi (.ok ⟨1, [[otherMsg 10], [onMsg 50 60 80 0]]⟩) =
      .ok [(60, 60, 0)] := by
  constructor
  · simp [Copilot.load_midi, Copilot.ctracks, Copilot.crun, otherMsg, onMsg]
  · simp [Copilot.load_midi, Copilot.ctracks, Copilot.crun, otherMsg, onMsg]

/-- **C2, amended (holds for `parse_midi_file`).**  In neothasia.py the
per-track loop `prun` ends, whenever it succeeds, with
`current_track_time = ct + Σ deltas of its own messages`, for *every*
incoming inter-track state `p` — and `ptracks` starts every track at
`ct = 0`, so a message's absolute tick position depends only on the deltas
of earlier messages of the same track. -/
theorem c2_per_track_tick_counter (tname : String) (msgs : List Msg) :
    ∀ (p : Neo.PState) (ct : Nat) (r : Neo.PState × Nat),
      Neo.prun tname p ct msgs = .ok r → r.2 = ct + (msgs.map Msg.time).sum := by
  induction msgs with
  | nil =>
      intro p ct r h
      cases h
      simp
  | cons m rest ih =>
      intro p ct r h
      unfold Neo.prun at h
      split at h
      · rename_i pr hs
        have h3 := Neo.pstep_time tname p ct m pr hs
        have g3 := ih pr.1 pr.2 r h
        simp only [List.map_cons, List.sum_cons]
        omega
      · exact Except.noConfusion h

/-- **C2, witness.** -/
theorem c2_per_track_tick_counter_witness :
    Neo.prun "Track 1" ⟨[], fun _ => none, []⟩ 0 [otherMsg 5, otherMsg 7] =
      .ok (⟨[], fun _ => none, []⟩, 12) ∧
    (12 : Nat) = 0 + ([otherMsg 5, otherMsg 7].map Msg.time).sum :=
  ⟨rfl, c2_per_track_tick_counter "Track 1" [otherMsg 5, otherMsg 7]
    ⟨[], fun _ => none, []⟩ 0 (⟨[], fun _ => none, []⟩, 12) rfl⟩

/-- **C3, counterexample.**  `Qwen.load_midi_notes` appends records in
note-off order and never sorts: with a note starting at tick 0 that ends
last, the output is `[start 1, start 0]`, not sorted by `start_time`. -/
theorem c3_qwen_unsorted_cex :
    Qwen.load_midi_notes
        (some ⟨480, [[onMsg 0 60 80 0, onMsg 1 64 80 0, offMsg 1 64 0, offMsg 1 60 0]]⟩) 0 =
      .ok [{ start_time := 1, velocity := 80, end_time := 2, note := 64 },
           { start_time := 0, velocity := 80, end_time := 3, note := 60 }] ∧
    ¬ List.Sorted (fun a b : Qwen.QNote => a.start_time ≤ b.start_time)
        [{ start_time := 1, velocity := 80, end_time := 2, note := 64 },
         { start_time := 0, velocity := 80, end_time := 3, note := 60 }] := by
  constructor
  · decide
  · intro h
    have hmem : ({ start_time := 0, velocity := 80, end_time := 3, note := 60 } : Qwen.QNote) ∈
        [({ start_time := 0, velocity := 80, end_time := 3, note := 60 } : Qwen.QNote)] := by
      simp
    have := (List.pairwise_cons.mp h).1 _ hmem
    simp at this

/-- **C3, amended (holds for `parse_midi_file`).**  neothasia.py's
`parse_midi_file` stably sorts `notes_data` by `start_time` before
returning, so every successful result is sorted (adjacent pairs are
non-decreasing in `start_time`) — though by C4 a successful result is
always the empty list. -/
theorem c3_parse_output_sorted (loaded : Option MidiFileData) (r : Neo.ParseResult)
    (h : Neo.parse_midi_file loaded = .ok r) :
    List.Sorted Neo.byStart r.notes_data := by
  unfold Neo.parse_midi_file at h
  split at h
  · cases h
    exact List.sorted_nil
  · split at h
    · rename_i pr hpt
      cases h
      letI : IsTotal Neo.NoteData Neo.byStart := ⟨fun a b => Nat.le_total _ _⟩
      letI : IsTrans Neo.NoteData Neo.byStart := ⟨fun a b c => Nat.le_trans⟩
      exact List.sorted_insertionSort Neo.byStart _
    · exact Except.noConfusion h

/-- **C3, witness.** -/
theorem c3_parse_output_sorted_witness :
    Neo.parse_midi_file none =
      .ok { notes_data := [], track_names := [], ticks_per_beat := 0, tempo_changes := [] } ∧
    List.Sorted Neo.byStart
      ({ notes_data := [], track_names := [], ticks_per_beat := 0,
         tempo_changes := [] } : Neo.ParseResult).notes_data :=
  ⟨rfl, c3_parse_output_sorted none _ rfl⟩

/-- **C4 (confirmed).**  In `parse_midi_file` the record stored on note-on
(`activeEntry`) has no `'note'` key, yet every emission reads
`note_info['note']`.  Hence (i) every *successful* return carries an empty
`notes_data` list, and (ii) for the family of files with one matched
note-on/note-off pair of positive tick duration, the function raises
`KeyError: 'note'` instead of returning. -/
theorem prun_pair_keyerror (t1 dt n v ch : Nat) (hv : 0 < v) (hdt : 0 < dt) :
    Neo.prun "Track 1" ⟨[], fun _ => none, []⟩ 0 [onMsg t1 n v ch, offMsg dt n ch] =
      .error "KeyError: note" := by
  have hp1 := Neo.pstep_noteOn_pos "Track 1" ⟨[], fun _ => none, []⟩ 0 t1 n v ch hv
  have hcl := Neo.closeKey_active_pos
      (⟨[], fun k => if k = (n, ch, "Track 1") then
          some (Neo.activeEntry (0 + t1) v ch "Track 1") else none, []⟩ : Neo.PState)
      (n, ch, "Track 1") (0 + t1) ((0 + t1) + dt) v ch "Track 1" (by simp) (by omega)
  have hp2 : Neo.pstep "Track 1"
      (⟨[], fun k => if k = (n, ch, "Track 1") then
          some (Neo.activeEntry (0 + t1) v ch "Track 1") else none, []⟩ : Neo.PState)
      (0 + t1) (offMsg dt n ch) = .error "KeyError: note" := by
    rw [Neo.pstep_noteOff_eq, hcl]
  unfold Neo.prun
  rw [hp1]
  dsimp only
  unfold Neo.prun
  rw [hp2]

theorem c4_keyerror_on_completed_note :
    (∀ (loaded : Option MidiFileData) (r : Neo.ParseResult),
        Neo.parse_midi_file loaded = .ok r → r.notes_data = []) ∧
    (∀ (tpb t1 dt n v ch : Nat), 0 < v → 0 < dt →
        Neo.parse_midi_file (some ⟨tpb, [[onMsg t1 n v ch, offMsg dt n ch]]⟩) =
          .error "KeyError: note") := by
  constructor
  · intro loaded r h
    unfold Neo.parse_midi_file at h
    split at h
    · cases h
      rfl
    · rename_i mid
      split at h
      · rename_i p0 tn0 hpt
        cases h
        obtain ⟨h1, _⟩ := Neo.ptracks_ok mid.tracks 0 ⟨[], fun _ => none, []⟩ [] (p0, tn0)
          Neo.noNoteField_init hpt
        have h1' : p0.notes_data = [] := h1
        simp [h1', List.insertionSort]
      · exact Except.noConfusion h
  · intro tpb t1 dt n v ch hv hdt
    have hpt : Neo.ptracks 0 ⟨[], fun _ => none, []⟩ [] [[onMsg t1 n v ch, offMsg dt n ch]] =
        .error "KeyError: note" := by
      unfold Neo.ptracks
      rw [show Neo.findTrackName 0 [onMsg t1 n v ch, offMsg dt n ch] = "Track 1" from rfl]
      rw [prun_pair_keyerror t1 dt n v ch hv hdt]
    unfold Neo.parse_midi_file
    dsimp only
    rw [hpt]

/-- **C4, witness.** -/
theorem c4_keyerror_on_completed_note_witness :
    ({ notes_data := [], track_names := [], ticks_per_beat := 0,
       tempo_changes := [] } : Neo.ParseResult).notes_data = [] ∧
    0 < 80 ∧ 0 < 2 ∧
    Neo.parse_midi_file (some ⟨480, [[onMsg 3 60 80 0, offMsg 2 60 0]]⟩) =
      .error "KeyError: note" :=
  ⟨c4_keyerror_on_completed_note.1 none _ rfl, by decide, by decide,
    c4_keyerror_on_completed_note.2 480 3 2 60 80 0 (by decide) (by decide)⟩

/-- **C5, counterexample.**  The claim says zero-duration pairs are never
emitted.  `Qwen.load_midi_notes` has no duration filter at all: a note-on
and a velocity-0 note-off at the same tick produce a record with
`end_time = start_time` (duration zero), which is emitted. -/
theorem c5_qwen_zero_duration_emitted_cex :
    Qwen.load_midi_notes (some ⟨480, [[onMsg 0 60 80 0,
        { type := .note_on, time := 0, note := 60, velocity := 0, channel := 0 }]]⟩) 0 =
      .ok [{ start_time := 0, velocity := 80, end_time := 0, note := 60 }] := by
  decide

/-- **C5, amended (holds for `parse_midi_file`).**  neothasia.py filters on
`duration > 0` in integer ticks (not a small positive real epsilon): when a
matched pair closes with non-positive tick duration the pair is silently
dropped — the key is popped, nothing is emitted and no error is raised —
and exactly when the tick duration is positive the emission branch runs
(where it dies on the missing `'note'` key, cf. C4). -/
theorem c5_nonpositive_duration_dropped (p : Neo.PState) (key : Neo.Key)
    (t1 t v c : Nat) (tn : String)
    (hk : p.active_notes key = some (Neo.activeEntry t1 v c tn)) :
    (t ≤ t1 → Neo.closeKey p key t =
        .ok { p with active_notes := fun k => if k = key then none else p.active_notes k }) ∧
    (t1 < t → Neo.closeKey p key t = .error "KeyError: note") :=
  ⟨fun ht => Neo.closeKey_active_nonpos p key t1 t v c tn hk ht,
   fun ht => Neo.closeKey_active_pos p key t1 t v c tn hk ht⟩

/-- **C5, witness.** -/
theorem c5_nonpositive_duration_dropped_witness :
    Neo.closeKey
        (⟨[], fun k => if k = (60, 0, "Track 1") then
            some (Neo.activeEntry 5 80 0 "Track 1") else none, []⟩ : Neo.PState)
        (60, 0, "Track 1") 3 =
      .ok { notes_data := [],
            active_notes := fun k => if k = (60, 0, "Track 1") then none else
              (fun k' => if k' = (60, 0, "Track 1") then
                some (Neo.activeEntry 5 80 0 "Track 1") else none) k,
            tempo_changes := [] } ∧
    Neo.closeKey
        (⟨[], fun k => if k = (60, 0, "Track 1") then
            some (Neo.activeEntry 5 80 0 "Track 1") else none, []⟩ : Neo.PState)
        (60, 0, "Track 1") 9 = .error "KeyError: note" :=
  ⟨(c5_nonpositive_duration_dropped _ (60, 0, "Track 1") 5 3 80 0 "Track 1" rfl).1 (by decide),
   (c5_nonpositive_duration_dropped _ (60, 0, "Track 1") 5 9 80 0 "Track 1" rfl).2 (by decide)⟩

/-- **C6 (confirmed).**  In both extractors that track note lifecycles, a
note-on with velocity 0 takes exactly the note-off code path: the step
functions give literally equal results (same pop of the key, same
`end_time`/`duration = current - start` computation) for a velocity-0
note-on and a note-off of the same key at the same delta, in any state. -/
theorem c6_velocity_zero_equals_note_off :
    (∀ (s : Qwen.QState) (t n ch v' : Nat),
        Qwen.qstep s { type := .note_on, time := t, note := n, velocity := 0, channel := ch } =
          Qwen.qstep s { type := .note_off, time := t, note := n, velocity := v', channel := ch }) ∧
    (∀ (tname : String) (p : Neo.PState) (ct t n ch v' : Nat),
        Neo.pstep tname p ct
            { type := .note_on, time := t, note := n, velocity := 0, channel := ch } =
          Neo.pstep tname p ct
            { type := .note_off, time := t, note := n, velocity := v', channel := ch }) :=
  ⟨fun _ _ _ _ _ => rfl, fun _ _ _ _ _ _ _ => rfl⟩

/-- **C7, counterexample.**  The claim says a note-on arriving while the
key already sounds closes the previous interval (emitting it) and opens a
new one.  The code overwrites the dict entry instead: on-at-0, on-at-10,
off-at-20 for the same key yields a single record `[10, 20]`; the first
interval (duration 10 ticks, far above any epsilon) is discarded, never
emitted. -/
theorem c7_retrigger_discards_cex :
    Qwen.load_midi_notes (some ⟨480, [[onMsg 0 60 80 0, onMsg 10 60 90 0, offMsg 10 60 0]]⟩) 0 =
      .ok [{ start_time := 10, velocity := 90, end_time := 20, note := 60 }] := by
  decide

/-- **C7, amended.**  A note-on with positive velocity received while the
key is already Sounding overwrites the stored interval: the output list is
unchanged (nothing is closed or emitted) and the key now maps to a fresh
interval starting at the current time. -/
theorem c7_retrigger_overwrites (s : Qwen.QState) (t n v ch : Nat) (hv : 0 < v) :
    (Qwen.qstep s (onMsg t n v ch)).notes = s.notes ∧
    (Qwen.qstep s (onMsg t n v ch)).active_notes n = some (s.current_time + t, v) := by
  simp [Qwen.qstep, onMsg, hv]

/-- **C7, witness.** -/
theorem c7_retrigger_overwrites_witness :
    0 < 80 ∧
    (Qwen.qstep ⟨0, fun _ => none, []⟩ (onMsg 5 60 80 0)).notes = [] ∧
    (Qwen.qstep ⟨0, fun _ => none, []⟩ (onMsg 5 60 80 0)).active_notes 60 = some (0 + 5, 80) :=
  ⟨by decide, (c7_retrigger_overwrites ⟨0, fun _ => none, []⟩ 5 60 80 0 (by decide)).1,
    (c7_retrigger_overwrites ⟨0, fun _ => none, []⟩ 5 60 80 0 (by decide)).2⟩

/-- **C8, counterexample.**  The claim says no exception propagates out of
the extractor.  `Copilot.load_midi` wraps `mido.MidiFile` in no handler at
all, so a load failure propagates to the caller unchanged. -/
theorem c8_exception_propagates_cex :
    Copilot.load_midi (.error "MidiFileError") = .error "MidiFileError" := rfl

/-- **C8, amended.**  The qwen and neothasia extractors catch the load
failure and return an *empty* result — but no `ParseError` value is
surfaced to the caller (the error is only printed): the caller receives the
same empty payload as for an empty file.  `Copilot.load_midi` (see the
counterexample) propagates the exception instead. -/
theorem c8_load_failure_empty_result :
    (∀ i : Nat, Qwen.load_midi_notes none i = .ok []) ∧
    Neo.parse_midi_file none =
      .ok { notes_data := [], track_names := [], ticks_per_beat := 0, tempo_changes := [] } :=
  ⟨fun _ => rfl, rfl⟩

/-- **C9, counterexample.**  The claim says the playback current time does
not change while Paused.  `get_current_midi_time_in_ticks` returns
`(now - start_time) * ticks_per_ms` whenever the state is playing *or
paused*, and pausing freezes `pause_offset` but not the wall clock: querying
the same reachable paused state (play at 0, pause at 5) at wall times 6 and
9 gives two different current times. -/
theorem c9_paused_clock_advances_cex :
    (App.pause_midi (App.startPlaying [] 0) 5).paused = true ∧
    App.get_current_midi_time_in_ticks (App.pause_midi (App.startPlaying [] 0) 5) 6 120 480 ≠
      App.get_current_midi_time_in_ticks (App.pause_midi (App.startPlaying [] 0) 5) 9 120 480 := by
  constructor
  · rfl
  · norm_num [App.get_current_midi_time_in_ticks, App.pause_midi, App.startPlaying,
      App.play_midi]

/-- **C9, amended.**  What does hold: (i) the run-loop update is gated on
`playing`, so a frame tick in a non-playing (e.g. paused) state changes
nothing — cursor, sprites and flags are untouched and nothing spawns; and
(ii) resuming from a pause sets `start_time := now - pause_offset`, so the
current time at the instant of resuming equals the current time at the
instant the pause began (playback continues from the pause point).  The
paused clock itself, however, keeps advancing if queried (see the
counterexample). -/
theorem c9_pause_noop_and_resume_continues :
    (∀ (s : App.AppState) (now : Int) (bpm fallSpeed tpb : ℚ),
        s.playing = false → App.frame s now bpm fallSpeed tpb = (s, [])) ∧
    (∀ (s : App.AppState) (w1 w2 : Int) (bpm tpb : ℚ),
        s.playing = true →
        App.get_current_midi_time_in_ticks (App.play_midi (App.pause_midi s w1) w2) w2 bpm tpb =
          App.get_current_midi_time_in_ticks s w1 bpm tpb) := by
  constructor
  · intro s now bpm fallSpeed tpb hp
    simp [App.frame, hp]
  · intro s w1 w2 bpm tpb hp
    simp only [App.pause_midi, App.play_midi, App.get_current_midi_time_in_ticks, hp,
      if_true, if_false, ite_true, ite_false]
    norm_num

/-- **C9, witness.** -/
theorem c9_pause_noop_and_resume_continues_witness :
    ((App.pause_midi (App.startPlaying [] 0) 5).playing = false ∧
      App.frame (App.pause_midi (App.startPlaying [] 0) 5) 7 120 1 480 =
        (App.pause_midi (App.startPlaying [] 0) 5, [])) ∧
    ((App.startPlaying [] 0).playing = true ∧
      App.get_current_midi_time_in_ticks
          (App.play_midi (App.pause_midi (App.startPlaying [] 0) 5) 9) 9 120 480 =
        App.get_current_midi_time_in_ticks (App.startPlaying [] 0) 5 120 480) :=
  ⟨⟨rfl, c9_pause_noop_and_resume_continues.1 (App.pause_midi (App.startPlaying [] 0) 5)
      7 120 1 480 rfl⟩,
   ⟨rfl, c9_pause_noop_and_resume_continues.2 (App.startPlaying [] 0) 5 9 120 480 rfl⟩⟩

/-- **C10 (confirmed).**  Across the lifetime of one playback session —
from a fresh play until the next stop/reset, under any sequence of frame
ticks (with arbitrary wall-clock times and slider values) and any
interleaving of pause and resume — the spawn loop never hands the same
timeline note (identified by its index in `notes_to_spawn`) to the sprite
group twice: the cursor only ever moves forward past spawned notes. -/
theorem c10_spawn_no_duplicates (tpb : ℚ) (notes : List Neo.NoteData) (now : Int)
    (ops : List App.Op) :
    ((App.runOps tpb (App.startPlaying notes now) ops).2).Nodup := by
  have hstart : (App.startPlaying notes now).playing = true := rfl
  obtain ⟨_, _, hpw, _⟩ := App.runOps_inv tpb ops (App.startPlaying notes now) (Or.inl hstart)
  exact List.Pairwise.imp (fun h => Nat.ne_of_lt h) hpw
